import Mathlib

/-
Shallow embedding of src/src/inc/til/small_vector.h (class til::small_vector<T, N>).

Modelling conventions:
  * size_t values (_size, _capacity, growth arithmetic) are Nat taken modulo
    `W = 2 ^ 64` exactly where the C++ performs unsigned arithmetic that can wrap
    (the `cap + std::max(add, cap / 2)` computation in `_grow`).
  * The buffer `_data[0 .. _capacity)` is a `List (Option α)` of length `_capacity`;
    `some v` is a slot holding a live constructed element of value v, `none` is a
    raw (uninitialized or destroyed) slot.  Element destruction
    (`std::destroy_n` / `std::destroy_at`) clears a slot to `none`; placement
    construction (`new (_data + _size) T(...)`, `std::uninitialized_*`) writes
    `some v`.  `std::uninitialized_move_n` into a fresh buffer copies the moved
    slots (for the trivially copyable element types the claims use, a move is a
    copy and the moved-from buffer is immediately freed or abandoned).
  * The identity of the `_data` pointer is a `DataPtr`: the address of the
    embedded `_buffer`, or a heap allocation identified by a counter (`_grow`
    and the heap path of `shrink_to_fit` produce a fresh allocation).  `free`
    has no observable effect on the container state and is not recorded.
  * `malloc` is an oracle `mallocOk : Nat → Bool` deciding, from the requested
    byte count, whether the allocation succeeds.  `sizeofT` is `sizeof(T)`.
  * The C++ member functions throw; each mutator here returns
    `Option Err × small_vector α`: `(some e, s)` means the call threw `e` with
    the container in state `s` at the moment of the throw (the translation keeps
    the source's statement order, so state mutations that the source performs
    before a throw would be visible in `s`), `(none, s)` is a normal return.
-/

namespace til

/-- Width of size_t: the container's indices and the growth arithmetic in
`_grow` are 64-bit unsigned values. -/
def W : Nat := 2 ^ 64

/-- Checked failures of small_vector: `_throw_too_long` (std::length_error,
CapacityOverflow), `_throw_alloc` (std::bad_alloc, AllocationFailure) and
`_throw_invalid_subscript` (std::out_of_range, IndexOutOfRange). -/
inductive Err where
  | capacityOverflow
  | allocationFailure
  | indexOutOfRange
deriving DecidableEq

/-- Identity of the buffer the `_data` pointer refers to.  `nullPtr` is the
null pointer: no constructor or mutator of small_vector ever stores it (the
default constructor stores `&_buffer[0]` and every reallocation stores either
`&_buffer[0]` or a malloc result that was checked non-null); it is included so
that `empty()`, which the source implements as `return !_data;`, can be
translated literally. -/
inductive DataPtr where
  | nullPtr
  | inlineBuf
  | heapBuf (id : Nat)
deriving DecidableEq

/-- State of a til::small_vector<T, N> object: the `_data` pointer, `_capacity`,
`_size`, and the `_capacity` storage slots that `_data` points at.  The
template parameter N appears as a value argument of the operations that read
it. -/
structure small_vector (α : Type) where
  data : DataPtr
  capacity : Nat
  size : Nat
  buf : List (Option α)
deriving DecidableEq

namespace small_vector

variable {α : Type}

/-- max_size() = SIZE_MAX / sizeof(T) = (2^64 - 1) / sizeof(T). -/
def max_size (sizeofT : Nat) : Nat := (W - 1) / sizeofT

/-- Default constructor: `_data{ &_buffer[0] }`, with the field initializers
`_capacity = N`, `_size = 0`; all N slots of `_buffer` are raw storage. -/
def mkEmpty (N : Nat) : small_vector α :=
  ⟨DataPtr.inlineBuf, N, 0, List.replicate N none⟩

/-- Sequence seen by iterating `[begin(), end())`, i.e. the slots
`_data[0 .. _size)`. -/
def live (s : small_vector α) : List (Option α) := s.buf.take s.size

/-- Fresh heap-allocation identity for a new malloc result. -/
def nextId (s : small_vector α) : Nat :=
  match s.data with
  | DataPtr.heapBuf i => i + 1
  | _ => 0

/-- Overwrite `k` consecutive slots starting at index `a` with `x`; models
`std::destroy_n` (`x = none`), `std::uninitialized_value_construct_n` and
`std::uninitialized_fill_n` (`x = some v`) on the range `[a, a + k)`. -/
def writeSlots (buf : List (Option α)) (a k : Nat) (x : Option α) : List (Option α) :=
  buf.take a ++ List.replicate k x ++ buf.drop (a + k)

/-- Translation of `_grow(add)`:
```
const auto cap = _capacity;
const auto newCap = cap + std::max(add, cap / 2);    // unsigned, may wrap
if (newCap < cap || newCap > max_size()) _throw_too_long();
const auto data = malloc(newCap * sizeof(T));
if (!data) _throw_alloc();
std::uninitialized_move_n(_data, _size, data);
if (_capacity != N) free(_data);
_data = data; _capacity = newCap;
```
Both throws happen before any mutation; on success the first `_size` slots are
moved into the fresh buffer, whose remaining slots are raw. -/
def _grow (sizeofT : Nat) (mallocOk : Nat → Bool) (add : Nat) (s : small_vector α) :
    Option Err × small_vector α :=
  let cap := s.capacity
  let newCap := (cap + max add (cap / 2)) % W
  if newCap < cap ∨ max_size sizeofT < newCap then
    (some Err.capacityOverflow, s)
  else if mallocOk (newCap * sizeofT) = false then
    (some Err.allocationFailure, s)
  else
    (none, ⟨DataPtr.heapBuf (nextId s), newCap, s.size,
            s.buf.take s.size ++ List.replicate (newCap - s.size) none⟩)

/-- Translation of `push_back` (both the `const T&` and the `T&&` overload have
the same observable effect: the constructed element's value is `v`):
```
if (_size == _capacity) _grow(1);
new (_data + _size) T(value);
_size++;
``` -/
def push_back (sizeofT : Nat) (mallocOk : Nat → Bool) (v : α) (s : small_vector α) :
    Option Err × small_vector α :=
  if s.size = s.capacity then
    match _grow sizeofT mallocOk 1 s with
    | (some e, t) => (some e, t)
    | (none, t) => (none, ⟨t.data, t.capacity, t.size + 1, t.buf.set t.size (some v)⟩)
  else
    (none, ⟨s.data, s.capacity, s.size + 1, s.buf.set s.size (some v)⟩)

/-- Translation of `emplace_back(args...)`: the same growth path and placement
construction as push_back, with `v` the value of the element constructed from
the forwarded arguments; the C++ additionally returns a reference to that
element. -/
def emplace_back (sizeofT : Nat) (mallocOk : Nat → Bool) (v : α) (s : small_vector α) :
    Option Err × small_vector α :=
  if s.size = s.capacity then
    match _grow sizeofT mallocOk 1 s with
    | (some e, t) => (some e, t)
    | (none, t) => (none, ⟨t.data, t.capacity, t.size + 1, t.buf.set t.size (some v)⟩)
  else
    (none, ⟨s.data, s.capacity, s.size + 1, s.buf.set s.size (some v)⟩)

/-- Translation of `resize(newSize)` and `resize(newSize, value)` (the two
overloads differ only in the value written into the newly exposed slots:
`uninitialized_value_construct_n` writes the value-initialized element — `d`
here, e.g. 0 for int — while `uninitialized_fill_n` writes the copy of the fill
argument, `d` here):
```
if (newSize < _size) std::destroy_n(_data + newSize, _size - newSize);
else if (newSize > _size) {
  if (newSize > _capacity) _grow(newSize - _capacity);
  std::uninitialized_value_construct_n(_data + _size, newSize - _size);
}
_size = newSize;
```
If `_grow` throws, the trailing `_size = newSize` is never executed. -/
def resize (sizeofT : Nat) (mallocOk : Nat → Bool) (d : α) (newSize : Nat)
    (s : small_vector α) : Option Err × small_vector α :=
  if newSize < s.size then
    (none, ⟨s.data, s.capacity, newSize, writeSlots s.buf newSize (s.size - newSize) none⟩)
  else if s.size < newSize then
    if s.capacity < newSize then
      match _grow sizeofT mallocOk (newSize - s.capacity) s with
      | (some e, t) => (some e, t)
      | (none, t) =>
          (none, ⟨t.data, t.capacity, newSize, writeSlots t.buf t.size (newSize - t.size) (some d)⟩)
    else
      (none, ⟨s.data, s.capacity, newSize, writeSlots s.buf s.size (newSize - s.size) (some d)⟩)
  else
    (none, ⟨s.data, s.capacity, newSize, s.buf⟩)

/-- Translation of `shrink_to_fit()`:
```
if (_capacity == N || _size == _capacity) return;
auto data = &_buffer[0];
if (_size > N) {
  data = malloc(_size * sizeof(T));
  if (!data) _throw_alloc();
}
std::uninitialized_move_n(_data, _size, data);
std::free(_data);
_data = data;
_capacity = _size;
```
Note that `_capacity = _size` is executed on the inline path as well, even when
`_size < N`. -/
def shrink_to_fit (N sizeofT : Nat) (mallocOk : Nat → Bool) (s : small_vector α) :
    Option Err × small_vector α :=
  if s.capacity = N ∨ s.size = s.capacity then
    (none, s)
  else if N < s.size then
    if mallocOk (s.size * sizeofT) = false then
      (some Err.allocationFailure, s)
    else
      (none, ⟨DataPtr.heapBuf (nextId s), s.size, s.size, s.buf.take s.size⟩)
  else
    (none, ⟨DataPtr.inlineBuf, s.size, s.size, s.buf.take s.size⟩)

/-- Translation of `clear()`: destroy all live elements, free the heap buffer
when `_capacity != N`, and reset `_data = &_buffer[0]`, `_capacity = N`,
`_size = 0`. -/
def clear (N : Nat) (_s : small_vector α) : small_vector α :=
  ⟨DataPtr.inlineBuf, N, 0, List.replicate N none⟩

/-- Translation of `at(off)` (const and non-const overload alike; neither
mutates the container):
```
if (off >= _size) _throw_invalid_subscript();
return _data[off];
``` -/
def at_ (i : Nat) (s : small_vector α) : Except Err (Option α) :=
  if s.size ≤ i then Except.error Err.indexOutOfRange
  else Except.ok (s.buf.getD i none)

/-- Translation of `empty()`: the source returns `!_data`.  `_data` is a
`DataPtr` here and is never `nullPtr` in a constructed container, so the test
compares against the null pointer. -/
def empty (s : small_vector α) : Bool := decide (s.data = DataPtr.nullPtr)

/-- Translation of `operator==`: `std::equal(begin(), end(), other.begin(),
other.end())`, i.e. the live sequences have equal length and equal elements. -/
def beq [DecidableEq α] (a b : small_vector α) : Bool := decide (live a = live b)

/-- Translation of `erase(pos)` with `pos = begin() + i`:
```
assert(pos >= begin() && pos < end());
std::destroy_at(_data + pos);
```
Only the element at `pos` has its lifetime ended (as written, `_data + pos`
adds two pointers and does not compile; the evident referent is the slot `pos`
points at).  No element is shifted, `_size` is not changed, and the function
falls off its end without returning a value on this path. -/
def eraseAt (i : Nat) (s : small_vector α) : small_vector α :=
  ⟨s.data, s.capacity, s.size, s.buf.set i none⟩

/-- Translation of `swap(other)`:
```
if (_capacity == N && other._capacity == N)
  std::swap_ranges(_data, _capacity, other._data);
```
When both containers are inline (`_capacity == N` means the buffers are the two
embedded N-slot arrays) the raw slots of the two buffers are exchanged — as
written the call passes `_capacity` where an end iterator is expected and does
not compile; the evident intent is the range `[_data, _data + _capacity)`.
`_size` and `_capacity` of the two containers are not exchanged.  In every
other mode combination the function does nothing. -/
def swap (N : Nat) (a b : small_vector α) : small_vector α × small_vector α :=
  if a.capacity = N ∧ b.capacity = N then
    (⟨a.data, a.capacity, a.size, b.buf⟩, ⟨b.data, b.capacity, b.size, a.buf⟩)
  else
    (a, b)

/-- Translation of the iterator-range constructor
`small_vector(InputIt first, InputIt last)`: start from the default-constructed
state and `push_back(*first)` for each element of the range; an exception from
push_back propagates. -/
def pushAll (sizeofT : Nat) (mallocOk : Nat → Bool) (l : List α) (s : small_vector α) :
    Option Err × small_vector α :=
  match l with
  | [] => (none, s)
  | v :: rest =>
    match push_back sizeofT mallocOk v s with
    | (some e, t) => (some e, t)
    | (none, t) => pushAll sizeofT mallocOk rest t

/-- Construction of a small_vector<T, N> from the range `[first, last)` holding
the values of `l` in order. -/
def ofList (N sizeofT : Nat) (mallocOk : Nat → Bool) (l : List α) :
    Option Err × small_vector α :=
  pushAll sizeofT mallocOk l (mkEmpty N)

/-! Helper lemmas. -/

/-- A slot write at index `i` followed by `take (i + 1)` yields the first `i`
old slots followed by the written value. -/
theorem take_set_succ {β : Type} (l : List β) (i : Nat) (x : β) (h : i < l.length) :
    (l.set i x).take (i + 1) = l.take i ++ [x] := by
  induction l generalizing i with
  | nil => simp at h
  | cons a t ih =>
    cases i with
    | zero => simp
    | succ j =>
      have hj : j < t.length := by simpa using h
      simp [ih j hj]

/-- Reading inside the taken prefix reads the underlying list. -/
theorem getD_take_of_lt {β : Type} (l : List β) (n i : Nat) (d : β) (h : i < n) :
    (l.take n).getD i d = l.getD i d := by
  induction l generalizing n i with
  | nil => simp
  | cons a t ih =>
    cases n with
    | zero => omega
    | succ m =>
      cases i with
      | zero => simp
      | succ j =>
        simp only [List.take_succ_cons, List.getD_cons_succ]
        exact ih m j (by omega)

/-- Taking the length of the left part of an append returns that part. -/
theorem take_append_of_length {β : Type} (A B : List β) (n : Nat) (h : A.length = n) :
    (A ++ B).take n = A := by
  subst h
  induction A with
  | nil => simp
  | cons a t ih => simp [ih]

/-- Characterization of wrap-around for the size_t sum computed in `_grow`:
the wrapped sum is below the first operand exactly when the true sum reached
`W`. -/
theorem add_mod_W_lt_iff (a m : Nat) (ha : a < W) (hm : m < W) :
    (a + m) % W < a ↔ W ≤ a + m := by
  rcases Nat.lt_or_ge (a + m) W with h | h
  · rw [Nat.mod_eq_of_lt h]
    omega
  · have h2 : a + m - W < W := by omega
    rw [Nat.mod_eq_sub_mod h, Nat.mod_eq_of_lt h2]
    omega

/-- When no arithmetic wrap is possible in the given state, `_grow` is the
three-way case split of the source written with the true (unwrapped) new
capacity. -/
theorem grow_spec (sizeofT : Nat) (mallocOk : Nat → Bool) (add : Nat)
    (s : small_vector α) (hc : s.capacity < W) (ha : add < W) :
    _grow sizeofT mallocOk add s =
      if W ≤ s.capacity + max add (s.capacity / 2) ∨
          max_size sizeofT < s.capacity + max add (s.capacity / 2) then
        (some Err.capacityOverflow, s)
      else if mallocOk ((s.capacity + max add (s.capacity / 2)) * sizeofT) = false then
        (some Err.allocationFailure, s)
      else
        (none, ⟨DataPtr.heapBuf (nextId s), s.capacity + max add (s.capacity / 2), s.size,
          s.buf.take s.size ++
            List.replicate (s.capacity + max add (s.capacity / 2) - s.size) none⟩) := by
  have hmW : max add (s.capacity / 2) < W := by omega
  by_cases hwrap : W ≤ s.capacity + max add (s.capacity / 2)
  · have hlt : (s.capacity + max add (s.capacity / 2)) % W < s.capacity :=
      (add_mod_W_lt_iff _ _ hc hmW).mpr hwrap
    simp only [_grow]
    rw [if_pos (Or.inl hlt), if_pos (Or.inl hwrap)]
  · have heqm : (s.capacity + max add (s.capacity / 2)) % W
        = s.capacity + max add (s.capacity / 2) := Nat.mod_eq_of_lt (by omega)
    simp only [_grow, heqm]
    by_cases hms : max_size sizeofT < s.capacity + max add (s.capacity / 2)
    · rw [if_pos (Or.inr hms), if_pos (Or.inr hms)]
    · have hn1 : ¬(s.capacity + max add (s.capacity / 2) < s.capacity ∨
          max_size sizeofT < s.capacity + max add (s.capacity / 2)) := by omega
      have hn2 : ¬(W ≤ s.capacity + max add (s.capacity / 2) ∨
          max_size sizeofT < s.capacity + max add (s.capacity / 2)) := by omega
      rw [if_neg hn1, if_neg hn2]

/-- A throwing `_grow` leaves the container state untouched. -/
theorem grow_fail_eq (sizeofT : Nat) (mallocOk : Nat → Bool) (add : Nat)
    (s : small_vector α) (e : Err)
    (h : (_grow sizeofT mallocOk add s).1 = some e) :
    (_grow sizeofT mallocOk add s).2 = s := by
  simp only [_grow] at h ⊢
  split_ifs at h ⊢ <;> simp_all

/-- Well-formedness used by the push_back induction: the buffer really has
`_capacity` slots and the live prefix fits. -/
def Inv (s : small_vector α) : Prop :=
  s.buf.length = s.capacity ∧ s.size ≤ s.capacity

/-- With a succeeding allocator and room left below max_size, push_back
appends the element, growing as needed. -/
theorem push_back_ok (sizeofT : Nat) (v : α) (s : small_vector α)
    (hInv : Inv s) (hb : 2 * s.size + 1 ≤ max_size sizeofT) :
    ∃ t, push_back sizeofT (fun _ => true) v s = (none, t) ∧ t.size = s.size + 1 ∧
      live t = live s ++ [some v] ∧ Inv t := by
  obtain ⟨hlen, hsc⟩ := hInv
  by_cases hsz : s.size = s.capacity
  · have hW : max_size sizeofT < W := by
      have h1 : max_size sizeofT ≤ W - 1 := Nat.div_le_self _ _
      have h2 : 0 < W := by norm_num [W]
      omega
    have hncT : s.capacity + max 1 (s.capacity / 2) ≤ 2 * s.size + 1 := by omega
    have hlt : s.capacity + max 1 (s.capacity / 2) < W := by omega
    have hmod : (s.capacity + max 1 (s.capacity / 2)) % W
        = s.capacity + max 1 (s.capacity / 2) := Nat.mod_eq_of_lt hlt
    have hgrow : _grow sizeofT (fun _ => true) 1 s =
        (none, ⟨DataPtr.heapBuf (nextId s), s.capacity + max 1 (s.capacity / 2), s.size,
          s.buf.take s.size ++
            List.replicate (s.capacity + max 1 (s.capacity / 2) - s.size) none⟩) := by
      simp only [_grow, hmod]
      rw [if_neg (by omega), if_neg (by simp)]
    simp only [push_back, if_pos hsz, hgrow]
    have hA : (s.buf.take s.size).length = s.size := by
      rw [List.length_take]
      omega
    have hlen2 : (s.buf.take s.size ++
        List.replicate (s.capacity + max 1 (s.capacity / 2) - s.size) none).length
          = s.capacity + max 1 (s.capacity / 2) := by
      simp only [List.length_append, List.length_replicate, hA]
      omega
    refine ⟨_, rfl, rfl, ?_, ?_, ?_⟩
    · show ((s.buf.take s.size ++
          List.replicate (s.capacity + max 1 (s.capacity / 2) - s.size) none).set s.size
            (some v)).take (s.size + 1) = live s ++ [some v]
      rw [take_set_succ _ _ _ (by omega)]
      have h3 : (s.buf.take s.size ++
          List.replicate (s.capacity + max 1 (s.capacity / 2) - s.size) none).take s.size
            = s.buf.take s.size := take_append_of_length _ _ _ hA
      rw [h3]
      rfl
    · show ((s.buf.take s.size ++
          List.replicate (s.capacity + max 1 (s.capacity / 2) - s.size) none).set s.size
            (some v)).length = s.capacity + max 1 (s.capacity / 2)
      rw [List.length_set]
      exact hlen2
    · show s.size + 1 ≤ s.capacity + max 1 (s.capacity / 2)
      omega
  · have hlt : s.size < s.capacity := by omega
    simp only [push_back, if_neg hsz]
    refine ⟨_, rfl, rfl, ?_, ?_, ?_⟩
    · show (s.buf.set s.size (some v)).take (s.size + 1) = live s ++ [some v]
      rw [take_set_succ _ _ _ (by omega)]
      rfl
    · show (s.buf.set s.size (some v)).length = s.capacity
      rw [List.length_set]
      exact hlen
    · show s.size + 1 ≤ s.capacity
      omega

/-- Iterated push_back of a whole list of values, with a succeeding allocator
and room below max_size, succeeds and appends the values in order. -/
theorem pushAll_ok (sizeofT : Nat) (l : List α) (s : small_vector α)
    (hInv : Inv s) (hb : 2 * (s.size + l.length) + 1 ≤ max_size sizeofT) :
    ∃ t, pushAll sizeofT (fun _ => true) l s = (none, t) ∧
      t.size = s.size + l.length ∧ live t = live s ++ l.map some ∧ Inv t := by
  induction l generalizing s with
  | nil => exact ⟨s, rfl, by simp, by simp, hInv⟩
  | cons v rest ih =>
    simp only [List.length_cons] at hb
    obtain ⟨t1, h1, hsz1, hlive1, hInv1⟩ := push_back_ok sizeofT v s hInv (by omega)
    obtain ⟨t2, h2, hsz2, hlive2, hInv2⟩ := ih t1 hInv1 (by omega)
    refine ⟨t2, ?_, ?_, ?_, hInv2⟩
    · simp only [pushAll, h1]
      exact h2
    · rw [hsz2, hsz1, List.length_cons]
      omega
    · rw [hlive2, hlive1, List.map_cons, List.append_assoc]
      rfl

/-! Concrete states used by the claim theorems: small_vector<int, 4>
(sizeof(int) = 4) with an always-succeeding allocator, driven through public
operations from the default-constructed state. -/

/-- Result of push_back of 1, 2, 3, 4, 5 on a default-constructed
small_vector<int, 4>: heap mode, capacity 6, size 5. -/
def demoPushed5 : small_vector Int :=
  (pushAll 4 (fun _ => true) [1, 2, 3, 4, 5] (mkEmpty 4)).2

/-- demoPushed5 after resize(2): heap mode, capacity 6, size 2. -/
def demoResized2 : small_vector Int :=
  (resize 4 (fun _ => true) 0 2 demoPushed5).2

/-- demoResized2 after shrink_to_fit(): inline mode, capacity 2, size 2. -/
def demoShrunk : small_vector Int :=
  (shrink_to_fit 4 4 (fun _ => true) demoResized2).2

/-- Result of push_back of 1, 2, 3, 4 on a default-constructed
small_vector<int, 4>: inline mode, capacity 4, size 4, full. -/
def demoPushed4 : small_vector Int :=
  (pushAll 4 (fun _ => true) [1, 2, 3, 4] (mkEmpty 4)).2

/-- Result of push_back of 10, 20, 30 on a default-constructed
small_vector<int, 4>: inline mode, capacity 4, size 3. -/
def demoPushed3 : small_vector Int :=
  (pushAll 4 (fun _ => true) [10, 20, 30] (mkEmpty 4)).2

/-! Claim theorems. -/

/-- Claim C1: the claimed invariant reads capacity() >= size() and
capacity() >= N for every state reachable by public operations from a
default-constructed container.  The code violates the second conjunct: on
small_vector<int, 4>, the sequence push_back 1..5, resize(2), shrink_to_fit()
(every step succeeding) reaches a state with capacity() = 2 < 4 = N, because
shrink_to_fit assigns `_capacity = _size` even on its inline path.  The first
conjunct, capacity() >= size(), does hold in that state. -/
theorem C1_capacity_ge_N_invariant_fails :
    (pushAll 4 (fun _ => true) ([1, 2, 3, 4, 5] : List Int) (mkEmpty 4)).1 = none ∧
    (resize 4 (fun _ => true) (0 : Int) 2 demoPushed5).1 = none ∧
    (shrink_to_fit 4 4 (fun _ => true) demoResized2).1 = none ∧
    demoShrunk.size ≤ demoShrunk.capacity ∧
    demoShrunk.capacity = 2 ∧
    ¬ 4 ≤ demoShrunk.capacity := by decide

/-- Claim C2: the claim states that for a heap-mode container with
size() < capacity() and size() <= N, a succeeding shrink_to_fit() makes
data() the inline buffer address and capacity() == N.  On the heap-mode state
with capacity 6 and size 2 (N = 4), shrink_to_fit succeeds and does return
data() to the inline buffer, but sets capacity() = size() = 2, not N = 4:
the source executes `_capacity = _size` on the inline path. -/
theorem C2_shrink_to_fit_capacity_ne_N :
    demoResized2.data = DataPtr.heapBuf 0 ∧
    demoResized2.size = 2 ∧
    demoResized2.size < demoResized2.capacity ∧
    demoResized2.size ≤ 4 ∧
    (shrink_to_fit 4 4 (fun _ => true) demoResized2).1 = none ∧
    demoShrunk.data = DataPtr.inlineBuf ∧
    demoShrunk.capacity = 2 ∧
    ¬ demoShrunk.capacity = 4 := by decide

/-- Claim C3: _grow(add) computes new capacity capacity + max(add, capacity/2)
in size_t arithmetic; it throws CapacityOverflow exactly when that sum wraps
around 2^64 or exceeds max_size() = SIZE_MAX / sizeof(T); on success the new
capacity is the computed sum, which is at least capacity + add.  Concretely,
on small_vector<int, 4> holding 1, 2, 3, 4 at capacity 4, pushing a fifth
element grows the capacity to 4 + max(1, 2) = 6 with size 5. -/
theorem C3_growth_formula (sizeofT : Nat) (mallocOk : Nat → Bool) (add : Nat)
    (s : small_vector α) (hc : s.capacity < W) (ha : add < W) :
    ((_grow sizeofT mallocOk add s).1 = some Err.capacityOverflow ↔
      W ≤ s.capacity + max add (s.capacity / 2) ∨
        max_size sizeofT < s.capacity + max add (s.capacity / 2)) ∧
    ((_grow sizeofT mallocOk add s).1 = none →
      (_grow sizeofT mallocOk add s).2.capacity
          = s.capacity + max add (s.capacity / 2) ∧
        s.capacity + add ≤ (_grow sizeofT mallocOk add s).2.capacity) ∧
    ((push_back 4 (fun _ => true) (5 : Int) demoPushed4).1 = none ∧
      (push_back 4 (fun _ => true) (5 : Int) demoPushed4).2.capacity = 6 ∧
      (push_back 4 (fun _ => true) (5 : Int) demoPushed4).2.size = 5) := by
  have hspec := grow_spec sizeofT mallocOk add s hc ha
  refine ⟨?_, ?_, by decide⟩
  · rw [hspec]
    by_cases h1 : W ≤ s.capacity + max add (s.capacity / 2) ∨
        max_size sizeofT < s.capacity + max add (s.capacity / 2)
    · simp [h1]
    · by_cases h2 : mallocOk ((s.capacity + max add (s.capacity / 2)) * sizeofT) = false
      · simp [h1, h2]
      · simp [h1, h2]
  · rw [hspec]
    by_cases h1 : W ≤ s.capacity + max add (s.capacity / 2) ∨
        max_size sizeofT < s.capacity + max add (s.capacity / 2)
    · simp [h1]
    · by_cases h2 : mallocOk ((s.capacity + max add (s.capacity / 2)) * sizeofT) = false
      · simp [h1, h2]
      · intro _
        simp only [if_neg h1, if_neg h2]
        exact ⟨trivial, by omega⟩

/-- Witness for C3 at a concrete input: int elements (sizeof 4), a container
of capacity 6, an always-succeeding allocator and add = 1; the hypotheses
capacity < 2^64 and add < 2^64 hold and the conclusion follows. -/
theorem C3_growth_formula_witness :
    demoPushed5.capacity < W ∧ (1 : Nat) < W ∧
    (((_grow 4 (fun _ => true) 1 demoPushed5).1 = some Err.capacityOverflow ↔
      W ≤ demoPushed5.capacity + max 1 (demoPushed5.capacity / 2) ∨
        max_size 4 < demoPushed5.capacity + max 1 (demoPushed5.capacity / 2)) ∧
    ((_grow 4 (fun _ => true) 1 demoPushed5).1 = none →
      (_grow 4 (fun _ => true) 1 demoPushed5).2.capacity
          = demoPushed5.capacity + max 1 (demoPushed5.capacity / 2) ∧
        demoPushed5.capacity + 1 ≤ (_grow 4 (fun _ => true) 1 demoPushed5).2.capacity) ∧
    ((push_back 4 (fun _ => true) (5 : Int) demoPushed4).1 = none ∧
      (push_back 4 (fun _ => true) (5 : Int) demoPushed4).2.capacity = 6 ∧
      (push_back 4 (fun _ => true) (5 : Int) demoPushed4).2.size = 5)) :=
  ⟨by decide, by decide,
    C3_growth_formula 4 (fun _ => true) 1 demoPushed5 (by decide) (by decide)⟩

/-- Claim C4: every growth-triggering mutator (push_back, emplace_back,
resize, shrink_to_fit) that fails with AllocationFailure or CapacityOverflow
leaves the container's observable state — size, capacity, data pointer and all
stored elements — exactly as before the call: in the source every throw
happens before any mutation of the fields. -/
theorem C4_strong_failure_guarantee (N sizeofT : Nat) (mallocOk : Nat → Bool)
    (v d : α) (n : Nat) (s : small_vector α) :
    (∀ e, (push_back sizeofT mallocOk v s).1 = some e →
      (push_back sizeofT mallocOk v s).2 = s) ∧
    (∀ e, (emplace_back sizeofT mallocOk v s).1 = some e →
      (emplace_back sizeofT mallocOk v s).2 = s) ∧
    (∀ e, (resize sizeofT mallocOk d n s).1 = some e →
      (resize sizeofT mallocOk d n s).2 = s) ∧
    (∀ e, (shrink_to_fit N sizeofT mallocOk s).1 = some e →
      (shrink_to_fit N sizeofT mallocOk s).2 = s) := by
  refine ⟨?_, ?_, ?_, ?_⟩
  · intro e he
    by_cases hsz : s.size = s.capacity
    · rcases hg : _grow sizeofT mallocOk 1 s with ⟨o, t⟩
      cases o with
      | none => simp [push_back, hsz, hg] at he
      | some e2 =>
        have h2 := grow_fail_eq sizeofT mallocOk 1 s e2 (by rw [hg])
        rw [hg] at h2
        simp [push_back, hsz, hg, h2]
    · simp [push_back, hsz] at he
  · intro e he
    by_cases hsz : s.size = s.capacity
    · rcases hg : _grow sizeofT mallocOk 1 s with ⟨o, t⟩
      cases o with
      | none => simp [emplace_back, hsz, hg] at he
      | some e2 =>
        have h2 := grow_fail_eq sizeofT mallocOk 1 s e2 (by rw [hg])
        rw [hg] at h2
        simp [emplace_back, hsz, hg, h2]
    · simp [emplace_back, hsz] at he
  · intro e he
    by_cases h1 : n < s.size
    · simp [resize, h1] at he
    · by_cases h2 : s.size < n
      · by_cases h3 : s.capacity < n
        · rcases hg : _grow sizeofT mallocOk (n - s.capacity) s with ⟨o, t⟩
          cases o with
          | none => simp [resize, h1, h2, h3, hg] at he
          | some e2 =>
            have h4 := grow_fail_eq sizeofT mallocOk (n - s.capacity) s e2 (by rw [hg])
            rw [hg] at h4
            simp [resize, h1, h2, h3, hg, h4]
        · simp [resize, h1, h2, h3] at he
      · simp [resize, h1, h2] at he
  · intro e he
    simp only [shrink_to_fit] at he ⊢
    split_ifs at he ⊢
    all_goals simp_all

/-- Witness for C4 at a concrete input: with a failing allocator and an
inline small_vector<int, 1> already holding one element, push_back throws
AllocationFailure and the state afterwards equals the state before. -/
theorem C4_strong_failure_guarantee_witness :
    (push_back 4 (fun _ => false) (8 : Int)
        (⟨DataPtr.inlineBuf, 1, 1, [some 7]⟩ : small_vector Int)).1
      = some Err.allocationFailure ∧
    (push_back 4 (fun _ => false) (8 : Int)
        (⟨DataPtr.inlineBuf, 1, 1, [some 7]⟩ : small_vector Int)).2
      = (⟨DataPtr.inlineBuf, 1, 1, [some 7]⟩ : small_vector Int) :=
  ⟨by decide,
    (C4_strong_failure_guarantee 1 4 (fun _ => false) (8 : Int) (0 : Int) 5
        (⟨DataPtr.inlineBuf, 1, 1, [some 7]⟩ : small_vector Int)).1
      Err.allocationFailure (by decide)⟩

/-- Claim C5: the claim states that erase(pos) destroys the element at pos,
shifts every later element one slot toward pos, decrements size() by one and
returns an iterator past the removed position.  As written, the source's
single-iterator erase only calls destroy_at: on the container holding
10, 20, 30, erase(begin()) leaves size() = 3 (not 2), leaves 20 and 30 in
their original slots with a dead slot 0 in front of them, and returns no
value (the function has no return statement on this path). -/
theorem C5_erase_no_compaction :
    demoPushed3.size = 3 ∧
    live demoPushed3 = [some 10, some 20, some 30] ∧
    (eraseAt 0 demoPushed3).size = 3 ∧
    ¬ (eraseAt 0 demoPushed3).size = 2 ∧
    live (eraseAt 0 demoPushed3) = [none, some 20, some 30] ∧
    ¬ live (eraseAt 0 demoPushed3) = [some 20, some 30] := by decide

/-- Claim C6: the claim states that swap exchanges the full contents of the
two containers in every combination of storage modes.  The source only
swaps the raw buffer slots when both containers are inline; with a
default-constructed (inline) container and a heap-mode container of five
elements, swap is a silent no-op: both containers keep their own contents. -/
theorem C6_swap_noop_mixed_mode :
    (mkEmpty 4 : small_vector Int).size = 0 ∧
    demoPushed5.size = 5 ∧
    ¬ demoPushed5.capacity = 4 ∧
    swap 4 (mkEmpty 4 : small_vector Int) demoPushed5 = (mkEmpty 4, demoPushed5) ∧
    ¬ live (swap 4 (mkEmpty 4 : small_vector Int) demoPushed5).1 = live demoPushed5 := by
  decide

/-- Claim C7: pushing v1..vn via push_back onto a default-constructed
container, with all allocations succeeding (and the element count small
enough that the capacity computation stays below max_size), succeeds with
size() = n and the iteration [begin, end) yielding v1..vn in order; the
iterator-range constructor over the same values builds that sequence and
operator== on the result holds. -/
theorem C7_push_back_round_trip {β : Type} [DecidableEq β] (N sizeofT : Nat) (l : List β)
    (hb : 2 * l.length + 1 ≤ max_size sizeofT) :
    ∃ t, ofList N sizeofT (fun _ => true) l = (none, t) ∧
      t.size = l.length ∧ live t = l.map some ∧ beq t t = true := by
  obtain ⟨t, h1, h2, h3, _⟩ := pushAll_ok sizeofT l (mkEmpty N)
    ⟨by simp [mkEmpty], by simp [mkEmpty]⟩ (by simp only [mkEmpty]; omega)
  refine ⟨t, ?_, ?_, ?_, ?_⟩
  · rw [ofList]
    exact h1
  · simpa [mkEmpty] using h2
  · simpa [mkEmpty, live] using h3
  · simp [beq]

/-- Witness for C7 at a concrete input: int elements (taking sizeof(T) = 1 so
max_size is SIZE_MAX), the five values 1..5 and N = 4. -/
theorem C7_push_back_round_trip_witness :
    2 * ([1, 2, 3, 4, 5] : List Int).length + 1 ≤ max_size 1 ∧
    ∃ t, ofList 4 1 (fun _ => true) ([1, 2, 3, 4, 5] : List Int) = (none, t) ∧
      t.size = ([1, 2, 3, 4, 5] : List Int).length ∧
      live t = ([1, 2, 3, 4, 5] : List Int).map some ∧ beq t t = true :=
  ⟨by decide, C7_push_back_round_trip 4 1 [1, 2, 3, 4, 5] (by decide)⟩

/-- Claim C8: at(i) raises IndexOutOfRange exactly when i >= size(), and for
i < size() it returns the element stored at position i; both overloads are
reads and never mutate the container (the model of at_ is a pure function of
the state). -/
theorem C8_at_checked (s : small_vector α) (i : Nat) :
    (at_ i s = Except.error Err.indexOutOfRange ↔ s.size ≤ i) ∧
    (i < s.size → at_ i s = Except.ok ((live s).getD i none)) := by
  constructor
  · simp only [at_]
    split_ifs with h <;> simp [h]
  · intro hi
    simp only [at_, if_neg (by omega : ¬ s.size ≤ i)]
    rw [live, getD_take_of_lt _ _ _ _ hi]

/-- Witness for C8 at a concrete input: a small_vector<int, 4> holding two
elements, read at index 1. -/
theorem C8_at_checked_witness :
    (1 : Nat) < (⟨DataPtr.inlineBuf, 4, 2, [some 10, some 20, none, none]⟩ :
        small_vector Int).size ∧
    at_ 1 (⟨DataPtr.inlineBuf, 4, 2, [some 10, some 20, none, none]⟩ : small_vector Int)
      = Except.ok ((live (⟨DataPtr.inlineBuf, 4, 2, [some 10, some 20, none, none]⟩ :
          small_vector Int)).getD 1 none) :=
  ⟨by decide,
    (C8_at_checked (⟨DataPtr.inlineBuf, 4, 2, [some 10, some 20, none, none]⟩ :
        small_vector Int) 1).2 (by decide)⟩

/-- Claim C9: the claim states empty() returns true iff size() == 0.  The
source returns `!_data`, and `_data` is never null in a constructed
container: on a default-constructed container, size() = 0 yet empty()
returns false. -/
theorem C9_empty_ignores_size :
    empty (mkEmpty 4 : small_vector Int) = false ∧
    (mkEmpty 4 : small_vector Int).size = 0 := by decide

/-- Claim C10: resize(n) with n equal to the current size() is an identity:
it succeeds without raising, and size, capacity, data pointer and all slots
are unchanged; the result does not depend on the allocator (the statement
holds for every mallocOk, in particular an always-failing one), so no
allocation is performed. -/
theorem C10_resize_same_size_identity (sizeofT : Nat) (mallocOk : Nat → Bool)
    (d : α) (s : small_vector α) :
    resize sizeofT mallocOk d s.size s = (none, s) := by
  simp [resize]

end small_vector

end til
